import Mathlib

/-!
Shallow embedding of `src/stackwalk.c` (stack unwinding, backtrace capture
and code-address symbolication for the Julia runtime) together with proofs
about the claims of the specification.

The embedding models the non-Windows (libunwind) build of the capture path,
which is the variant carrying the `jl_safe_restore` recoverable-fault
boundary, plus the `_CPU_X86_64_` Windows resolution callbacks that carry
the `jl_in_stackwalk` re-entrancy guard.  External primitives that are not
part of `stackwalk.c` (libunwind's `unw_get_reg`/`unw_step`, the debug-help
oracles `RtlLookupFunctionEntry`/`SymFunctionTableAccess64`/
`SymGetModuleBase64`, and the code-info service `jl_getFunctionInfo`) are
modelled from the spec as explicit oracle parameters.
-/

set_option autoImplicit false

namespace Stackwalk

/-- A frame address pair written by one unwind step: the instruction pointer
and stack pointer stored into the caller's `ip`/`sp` output arrays. -/
structure Frame where
  ip : Nat
  sp : Nat
deriving DecidableEq, Repr

/-- Result of one backend step (`jl_unw_step`): `ok f next more` means the
current frame `f` was written to the output slot and `more` tells whether
the cursor advanced to a caller frame (the C function's return value);
`fail` means the step failed without writing a frame (the disabled backend,
or a register read failure); `fault` means the step triggered an illegal
memory access that the `jl_safe_restore` boundary intercepts. -/
inductive StepResult (κ : Type) where
  | ok (f : Frame) (next : κ) (more : Bool)
  | fail
  | fault

/-- An unwind backend: `init` models `jl_unw_init` (returning `none` when
initialisation fails) and `step` models `jl_unw_step`. -/
structure Backend (γ κ : Type) where
  init : γ → Option κ
  step : κ → StepResult κ

/-- Modelled from the spec: the libunwind primitives `unw_get_reg` and
`unw_step` called by `jl_unw_step` are not part of this repository's
source; the spec describes the backend as yielding the walk's frames
innermost first, writing the current frame's ip and sp on every step and
reporting the end of the walk at the outermost frame.  The cursor is the
list of frames not yet visited; a cursor produced by a successful `init`
always has a current frame, so the `[]` case (a register read failing,
writing nothing) is never reached on walks of positive depth. -/
def unwStep : List Frame → StepResult (List Frame)
  | [] => .fail
  | [f] => .ok f [] false
  | f :: g :: r => .ok f (g :: r) true

/-- The libunwind backend: `jl_unw_init` wraps `unw_init_local`, modelled
from the spec as yielding a cursor positioned at the context's innermost
frame.  An execution context is identified with the walk it induces. -/
def unwBackend : Backend (List Frame) (List Frame) where
  init := fun ctx => some ctx
  step := unwStep

/-- The disabled backend (`_CPU_ARM_` variant, stackwalk.c lines 283-287):
`jl_unw_init` and `jl_unw_step` both return 0 immediately. -/
def disabledBackend : Backend Unit Unit where
  init := fun _ => none
  step := fun _ => .fail

/-- A libunwind walk with an illegal memory access injected at a chosen
step call: the cursor carries the remaining frames together with the number
of further step calls that behave normally before the fault fires. -/
def faultyStep : List Frame × Nat → StepResult (List Frame × Nat)
  | (_, 0) => .fault
  | (fs, t + 1) =>
    match unwStep fs with
    | .ok f next more => .ok f (next, t) more
    | .fail => .fail
    | .fault => .fault

/-- The globals of `stackwalk.c` that the modelled functions read or write:
the durable snapshot `jl_bt_data`/`jl_bt_size`, and `jl_safe_restore`
(modelled as whether a recovery buffer is currently installed). -/
structure JlState where
  bt_data : List Nat
  bt_size : Nat
  safe_restore : Bool
deriving DecidableEq, Repr

/-- The loop of `jl_unw_stepn` (stackwalk.c lines 41-50) together with the
recovery path (lines 53-59).  `left` is the remaining capacity
`maxsize - n`, so the loop's `n >= maxsize` test is `left = 0`; `n` counts
the completed steps and `buf` holds the frames written into the output
arrays so far.  Returns the count produced by the `n++` after the loop (or
by the fault-recovery path's `if (n > 0) n -= 1`), the written frames, and
the final cursor. -/
def stepnGo {κ : Type} (step : κ → StepResult κ) (maxsize : Nat) :
    Nat → κ → Nat → List Frame → Nat × List Frame × κ
  | 0, cur, _, buf => (maxsize + 1, buf, cur)
  | left + 1, cur, n, buf =>
    match step cur with
    | .ok f next more =>
      if more then stepnGo step maxsize left next (n + 1) (buf ++ [f])
      else (n + 1, buf ++ [f], next)
    | .fail => (n + 1, buf, cur)
    | .fault => (if 0 < n then n - 1 else n, buf, cur)

/-- Result of `jl_unw_stepn`: the returned count, the frames written into
the caller's arrays, the final cursor, and the global state after the
`jl_safe_restore` save/restore. -/
structure StepnResult (κ : Type) where
  count : Nat
  frames : List Frame
  cursor : κ
  state : JlState

/-- The fault-tolerant stepping loop `jl_unw_stepn` (stackwalk.c lines
27-66, non-Windows variant): save `jl_safe_restore`, install the local
recovery buffer, run the loop, and restore `jl_safe_restore` on every exit
path. -/
def jl_unw_stepn {κ : Type} (step : κ → StepResult κ) (cursor : κ)
    (maxsize : Nat) (st : JlState) : StepnResult κ :=
  let old_buf := st.safe_restore
  let st1 : JlState := { st with safe_restore := true }
  let r := stepnGo step maxsize maxsize cursor 0 []
  { count := r.1, frames := r.2.1, cursor := r.2.2,
    state := { st1 with safe_restore := old_buf } }

/-- Bounded capture `rec_backtrace_ctx` (stackwalk.c lines 68-77):
initialise a cursor from the context, run `jl_unw_stepn` with no
stack-pointer array, and clamp the count (`n > maxsize ? maxsize : n`). -/
def rec_backtrace_ctx {γ κ : Type} (B : Backend γ κ) (ctx : γ)
    (maxsize : Nat) (st : JlState) : Nat × List Frame × JlState :=
  match B.init ctx with
  | none => (0, [], st)
  | some cur =>
    let r := jl_unw_stepn B.step cur maxsize st
    (if r.count > maxsize then maxsize else r.count, r.frames, r.state)

/-- Bounded capture from the calling context, `rec_backtrace` (lines
79-85): capture the caller's register state with `jl_unw_get` (external,
modelled as the `ctx` argument) and delegate to `rec_backtrace_ctx`. -/
def rec_backtrace {γ κ : Type} (B : Backend γ κ) (ctx : γ) (maxsize : Nat)
    (st : JlState) : Nat × List Frame × JlState :=
  rec_backtrace_ctx B ctx maxsize st

/-- `jl_array_grow_end`: extend a one-dimensional array by `k` cells; the
new cells are modelled as holding 0. -/
def growEnd (a : List Nat) (k : Nat) : List Nat :=
  a ++ List.replicate k 0

/-- `jl_array_del_end`: drop the last `k` cells of the array. -/
def delEnd (a : List Nat) (k : Nat) : List Nat :=
  a.take (a.length - k)

/-- Writing `vals` into the array starting at cell `off`, the effect of
`jl_unw_stepn` writing through `jl_array_data(a) + offset`. -/
def writeAt (a : List Nat) (off : Nat) (vals : List Nat) : List Nat :=
  a.take off ++ vals ++ a.drop (off + vals.length)

/-- The do-while loop of `jl_backtrace_from_here` (stackwalk.c lines
106-113) together with the final trim (lines 114-115): grow `ip` (and `sp`
when present) by `maxincr` cells, run `jl_unw_stepn` writing at `offset`,
advance `offset`, and repeat while the count signals truncation
(`n > maxincr`); on exit delete the `maxincr - n` unused cells from the
end.  `fuel` bounds the number of loop iterations; since every repeated
iteration consumes `maxincr ≥ 1` frames of the walk, any fuel at least the
depth of the walk makes the bound irrelevant. -/
def fromHereGo {κ : Type} (step : κ → StepResult κ) (maxincr : Nat) :
    Nat → κ → List Nat → Option (List Nat) → Nat → JlState →
    List Nat × Option (List Nat) × JlState
  | 0, _, ipArr, sp, _, st => (ipArr, sp, st)
  | fuel + 1, cur, ipArr, sp, offset, st =>
    let ip1 := growEnd ipArr maxincr
    let sp1 := sp.map fun a => growEnd a maxincr
    let r := jl_unw_stepn step cur maxincr st
    let ip2 := writeAt ip1 offset (r.frames.map Frame.ip)
    let sp2 := sp1.map fun a => writeAt a offset (r.frames.map Frame.sp)
    if r.count > maxincr then
      fromHereGo step maxincr fuel r.cursor ip2 sp2 (offset + maxincr) r.state
    else
      (delEnd ip2 (maxincr - r.count),
       sp2.map fun a => delEnd a (maxincr - r.count), r.state)

/-- Growable capture `jl_backtrace_from_here` with the growth increment as
a parameter: allocate empty ip (and, when `returnsp`, sp) arrays, and when
`jl_unw_init` succeeds run the grow/step/trim loop.  The source fixes the
increment (`const size_t maxincr = 1000`); keeping it as a parameter lets
the theorems show the result does not depend on it. -/
def jl_backtrace_from_here_gen {γ κ : Type} (B : Backend γ κ)
    (maxincr fuel : Nat) (returnsp : Bool) (ctx : γ) (st : JlState) :
    List Nat × Option (List Nat) × JlState :=
  let sp0 : Option (List Nat) := if returnsp then some [] else none
  match B.init ctx with
  | none => ([], sp0, st)
  | some cur => fromHereGo B.step maxincr fuel cur [] sp0 0 st

/-- Growable capture `jl_backtrace_from_here` (stackwalk.c lines 88-120),
with the source's fixed increment of 1000. -/
def jl_backtrace_from_here {γ κ : Type} (B : Backend γ κ) (fuel : Nat)
    (returnsp : Bool) (ctx : γ) (st : JlState) :
    List Nat × Option (List Nat) × JlState :=
  jl_backtrace_from_here_gen B 1000 fuel returnsp ctx st

/-- Snapshot read-out `jl_get_backtrace` (stackwalk.c lines 122-135):
allocate a fresh array of length `jl_bt_size` and `memcpy` the first
`jl_bt_size` entries of `jl_bt_data` into it; the globals are not
written. -/
def jl_get_backtrace (st : JlState) : List Nat × JlState :=
  (st.bt_data.take st.bt_size, st)

/-- The descriptor `jl_frame_t` produced by the external code-info service
`jl_getFunctionInfo` (debuginfo, not part of this file): possibly-absent
function and file names, a line number (`-1` when unknown), an opaque
`linfo` reference, and the native-code and inlined flags. -/
structure JlSymFrame where
  func_name : Option String
  file_name : Option String
  line : Int
  linfo : Option Nat
  fromC : Bool
  inlined : Bool
deriving DecidableEq, Repr

/-- The external code-info service `jl_getFunctionInfo(&frames, ip, skipC,
noInline)`, modelled as a pure function of the query returning the frame
descriptors (innermost inlined frame first). -/
def CodeInfoService : Type :=
  Nat → Bool → Bool → List JlSymFrame

/-- One entry of the svec built by `jl_lookup_code_address` (slots 0-6 of
the 7-slot svec): an absent function or file name becomes `empty_sym`,
modelled as the empty string; slot 6 holds the queried address boxed as a
signed long. -/
structure LookupEntry where
  func : String
  file : String
  line : Int
  linfo : Option Nat
  fromC : Bool
  inlined : Bool
  pointer : Int
deriving DecidableEq, Repr

/-- The symbolication bridge `jl_lookup_code_address` (stackwalk.c lines
351-382): query the service with `noInline = 0`, then box each returned
frame into a 7-slot svec, substituting `empty_sym` for an absent function
or file name; the `line` slot holds the line exactly as returned by the
service and slot 6 holds the queried ip. -/
def jl_lookup_code_address (svc : CodeInfoService) (ip : Nat)
    (skipC : Bool) : List LookupEntry :=
  (svc ip skipC false).map fun f =>
    { func := f.func_name.getD "", file := f.file_name.getD "",
      line := f.line, linfo := f.linfo, fromC := f.fromC,
      inlined := f.inlined, pointer := (ip : Int) }

/-- One line of `jl_gdblookup` output for one frame descriptor (stackwalk.c
lines 395-408): the three `jl_safe_printf` formats.  A missing file name
with a present function name reaches `printf("%s", NULL)` in C; that corner
is modelled as the empty string. -/
def renderFrame (ip : Nat) (f : JlSymFrame) : String :=
  match f.func_name with
  | none => "unknown function (ip: " ++ toString ip ++ ")"
  | some fn =>
    if f.line = -1 then fn ++ " at " ++ f.file_name.getD "" ++ " (unknown line)"
    else fn ++ " at " ++ f.file_name.getD "" ++ ":" ++ toString f.line

/-- The for loop of `jl_gdblookup` (stackwalk.c lines 394-409): one printed
line per returned frame descriptor, each frame handled independently. -/
def gdbLoop (ip : Nat) : List JlSymFrame → List String
  | [] => []
  | f :: rest => renderFrame ip f :: gdbLoop ip rest

/-- The diagnostic lookup `jl_gdblookup` (stackwalk.c lines 385-411): query
the service with `skipC = 0` and `noInline = 1` and emit one line per
returned descriptor. -/
def jl_gdblookup (svc : CodeInfoService) (ip : Nat) : List String :=
  gdbLoop ip (svc ip false true)

/-- The diagnostic printer `jlbacktrace` (stackwalk.c lines 413-418): for
each of the first `jl_bt_size` stored addresses, run `jl_gdblookup` on the
address minus one. -/
def jlbacktrace (svc : CodeInfoService) (st : JlState) : List (List String) :=
  (st.bt_data.take st.bt_size).map fun d => jl_gdblookup svc (d - 1)

/-- The `jl_in_stackwalk` re-entrancy flag of the Windows build. -/
structure WinState where
  jl_in_stackwalk : Bool
deriving DecidableEq, Repr

/-- The resolution callback `JuliaFunctionTableAccess64`, `_CPU_X86_64_`
variant (stackwalk.c lines 148-167): first try `RtlLookupFunctionEntry`
(the `rtl` oracle, `none` on a miss) and return its entry on a hit; on a
miss, return 0 when `jl_in_stackwalk` is already set, otherwise set the
flag, call `SymFunctionTableAccess64` (the `sym` oracle, which observes the
flag at the time of the call) and clear the flag. -/
def JuliaFunctionTableAccess64 (rtl : Nat → Option Nat)
    (sym : Nat → Bool → Nat) (addrBase : Nat) (st : WinState) :
    Nat × WinState :=
  match rtl addrBase with
  | some fn => (fn, st)
  | none =>
    if st.jl_in_stackwalk then (0, st)
    else
      let st1 : WinState := { st with jl_in_stackwalk := true }
      let ftable := sym addrBase st1.jl_in_stackwalk
      (ftable, { st1 with jl_in_stackwalk := false })

/-- The resolution callback `JuliaGetModuleBase64`, `_CPU_X86_64_` variant
(stackwalk.c lines 168-194): first try `RtlLookupFunctionEntry` and return
its image base on a hit; on a miss, return 0 when `jl_in_stackwalk` is
already set, otherwise set the flag, call `SymGetModuleBase64` and clear
the flag. -/
def JuliaGetModuleBase64 (rtl : Nat → Option Nat)
    (sym : Nat → Bool → Nat) (dwAddr : Nat) (st : WinState) :
    Nat × WinState :=
  match rtl dwAddr with
  | some imageBase => (imageBase, st)
  | none =>
    if st.jl_in_stackwalk then (0, st)
    else
      let st1 : WinState := { st with jl_in_stackwalk := true }
      let fbase := sym dwAddr st1.jl_in_stackwalk
      (fbase, { st1 with jl_in_stackwalk := false })

/-- A concrete empty global state used by witnesses and counterexamples. -/
def st0 : JlState :=
  { bt_data := [], bt_size := 0, safe_restore := false }

/-- A concrete two-frame walk. -/
def walk2 : List Frame :=
  [{ ip := 1, sp := 2 }, { ip := 3, sp := 4 }]

/-- A concrete three-frame walk. -/
def walk3 : List Frame :=
  [{ ip := 1, sp := 2 }, { ip := 3, sp := 4 }, { ip := 5, sp := 6 }]

/-- A concrete state whose snapshot holds three addresses of which the
first two are current. -/
def stA : JlState :=
  { bt_data := [10, 20, 30], bt_size := 2, safe_restore := false }

/-- A code-info service answering every query with a single descriptor that
has no function name and line 5, probing the normalisation performed by
`jl_lookup_code_address`. -/
def svcNoName : CodeInfoService :=
  fun _ _ _ =>
    [{ func_name := none, file_name := none, line := 5, linfo := none,
       fromC := true, inlined := false }]

/-- A code-info service whose answer depends on the `noInline` flag: one
physical frame when inline expansion is suppressed, an inlined frame plus
the physical frame when it is expanded. -/
def svcInline : CodeInfoService :=
  fun _ _ noInline =>
    if noInline then
      [{ func_name := some "f", file_name := some "a.c", line := 1,
         linfo := none, fromC := false, inlined := false }]
    else
      [{ func_name := some "g", file_name := some "b.c", line := 2,
         linfo := none, fromC := false, inlined := true },
       { func_name := some "f", file_name := some "a.c", line := 1,
         linfo := none, fromC := false, inlined := false }]

/-- An `RtlLookupFunctionEntry` oracle that resolves every address. -/
def rtlHit : Nat → Option Nat :=
  fun _ => some 7

/-- A debug-help oracle returning 0 for every query. -/
def symZero : Nat → Bool → Nat :=
  fun _ _ => 0

/-! Helper lemmas about the stepping loop. -/

/-- Running the loop on a libunwind cursor whose walk fits in the remaining
capacity collects every frame and counts the last one via the `n++` after
the loop. -/
theorem stepnGo_unw_complete (m : Nat) (cur : List Frame) :
    ∀ (left n : Nat) (buf : List Frame), cur ≠ [] → cur.length ≤ left →
      stepnGo unwStep m left cur n buf = (n + cur.length, buf ++ cur, []) := by
  induction cur with
  | nil => intro _ _ _ h _; exact absurd rfl h
  | cons f rest ih =>
    intro left n buf _ hlen
    match rest, left with
    | _, 0 => simp at hlen
    | [], left' + 1 => simp [stepnGo, unwStep]
    | g :: rest', left' + 1 =>
      have hlen' : (g :: rest').length ≤ left' := by
        simpa [Nat.succ_le_succ_iff] using hlen
      have hcons : (g :: rest') ≠ [] := by simp
      simp only [stepnGo, unwStep, if_pos]
      rw [ih left' (n + 1) (buf ++ [f]) hcons hlen']
      simp [Nat.add_comm, Nat.add_assoc, Nat.add_left_comm]

/-- Running the loop on a libunwind cursor whose walk exceeds the remaining
capacity fills the capacity and returns the sentinel `maxsize + 1`, leaving
the cursor at the first uncollected frame. -/
theorem stepnGo_unw_trunc (m : Nat) :
    ∀ (left : Nat) (cur : List Frame) (n : Nat) (buf : List Frame),
      left < cur.length →
      stepnGo unwStep m left cur n buf
        = (m + 1, buf ++ cur.take left, cur.drop left) := by
  intro left
  induction left with
  | zero => intro cur n buf _; simp [stepnGo]
  | succ left' ih =>
    intro cur n buf hlen
    match cur with
    | [] => simp at hlen
    | [f] => simp at hlen
    | f :: g :: rest =>
      have hlen' : left' < (g :: rest).length := by
        simpa [Nat.succ_lt_succ_iff] using hlen
      simp only [stepnGo, unwStep, if_pos]
      rw [ih (g :: rest) (n + 1) (buf ++ [f]) hlen']
      simp

/-- Running the loop on a cursor that faults at its next-but-`j` step call,
with enough capacity to reach the fault, collects `j` frames and then takes
the recovery path, which backs the count off by one. -/
theorem stepnGo_fault (m : Nat) :
    ∀ (j : Nat) (walk : List Frame) (left n : Nat) (buf : List Frame),
      j < left → j + 1 ≤ walk.length →
      stepnGo faultyStep m left (walk, j) n buf
        = (if 0 < n + j then n + j - 1 else n + j,
           buf ++ walk.take j, (walk.drop j, 0)) := by
  intro j
  induction j with
  | zero =>
    intro walk left n buf hleft _
    match left with
    | left' + 1 => simp [stepnGo, faultyStep]
  | succ j' ih =>
    intro walk left n buf hleft hlen
    match left with
    | left' + 1 =>
      match walk with
      | [] => simp at hlen
      | [f] => simp at hlen
      | f :: g :: rest =>
        have hleft' : j' < left' := by omega
        have hlen' : j' + 1 ≤ (g :: rest).length := by
          simp only [List.length_cons] at hlen ⊢; omega
        simp only [stepnGo, faultyStep, unwStep, if_pos]
        rw [ih (g :: rest) left' (n + 1) (buf ++ [f]) hleft' hlen']
        have : n + 1 + j' = n + (j' + 1) := by omega
        simp [this]

/-- The `jl_safe_restore` save/restore in `jl_unw_stepn` leaves the global
state exactly as it was. -/
theorem jl_unw_stepn_state {κ : Type} (step : κ → StepResult κ) (cursor : κ)
    (maxsize : Nat) (st : JlState) :
    (jl_unw_stepn step cursor maxsize st).state = st := by
  cases st; rfl

/-- `jl_unw_stepn` on a nonempty libunwind walk that fits in the capacity
returns the exact frame count and all frames. -/
theorem jl_unw_stepn_unw_complete (walk : List Frame) (m : Nat)
    (st : JlState) (hw : walk ≠ []) (hm : walk.length ≤ m) :
    jl_unw_stepn unwStep walk m st
      = { count := walk.length, frames := walk, cursor := [], state := st } := by
  have h := stepnGo_unw_complete m walk m 0 [] hw hm
  cases st
  simp [jl_unw_stepn, h]

/-- `jl_unw_stepn` on a libunwind walk deeper than the capacity returns the
sentinel `m + 1` and the first `m` frames, leaving the cursor at the first
uncollected frame. -/
theorem jl_unw_stepn_unw_trunc (walk : List Frame) (m : Nat)
    (st : JlState) (hm : m < walk.length) :
    jl_unw_stepn unwStep walk m st
      = { count := m + 1, frames := walk.take m, cursor := walk.drop m,
          state := st } := by
  have h := stepnGo_unw_trunc m m walk 0 [] hm
  cases st
  simp [jl_unw_stepn, h]

/-- C1: for every cursor (a libunwind walk of positive depth), output
buffers and capacity `maxsize`, `jl_unw_stepn` returns `maxsize + 1` when
it collects `maxsize` frames before the backend reports the end of the
walk (signalling truncation), and otherwise returns the exact number of
frames it wrote into the buffer. -/
theorem C1_stepn_sentinel_or_exact (walk : List Frame) (maxsize : Nat)
    (st : JlState) (hw : walk ≠ []) :
    (jl_unw_stepn unwStep walk maxsize st).count
        = (if maxsize < walk.length then maxsize + 1 else walk.length)
      ∧ (jl_unw_stepn unwStep walk maxsize st).frames
        = (if maxsize < walk.length then walk.take maxsize else walk)
      ∧ (¬ maxsize < walk.length →
          (jl_unw_stepn unwStep walk maxsize st).count
            = (jl_unw_stepn unwStep walk maxsize st).frames.length) := by
  by_cases h : maxsize < walk.length
  · rw [jl_unw_stepn_unw_trunc walk maxsize st h]
    simp [h]
  · have hle : walk.length ≤ maxsize := Nat.le_of_not_lt h
    rw [jl_unw_stepn_unw_complete walk maxsize st hw hle]
    simp [h]

/-- Witness for C1: a two-frame walk with capacity 5 ends the walk first
and yields exactly the two written frames; the hypothesis that the walk is
nonempty is discharged on the concrete walk. -/
theorem C1_witness :
    walk2 ≠ []
      ∧ (jl_unw_stepn unwStep walk2 5 st0).count = 2
      ∧ (jl_unw_stepn unwStep walk2 5 st0).frames = walk2 := by
  refine ⟨by decide, ?_, ?_⟩
  · have h := (C1_stepn_sentinel_or_exact walk2 5 st0 (by decide)).1
    simpa [walk2] using h
  · have h := (C1_stepn_sentinel_or_exact walk2 5 st0 (by decide)).2.1
    simpa [walk2] using h

/-- C2 counterexample: bounded capture of a depth-2 walk with capacity 1
returns 1 (the count clamped to the capacity by
`n > maxsize ? maxsize : n`), not the truncation sentinel `1 + 1` the claim
asserts. -/
theorem C2_counterexample :
    ¬ ((rec_backtrace_ctx unwBackend walk2 1 st0).1 = 1 + 1) := by
  decide

/-- C2 (amended): for every capacity `c` and nonempty walk of depth `d`,
bounded capture `rec_backtrace_ctx` returns `min d c` frames: `d` when
`d ≤ c` and `c` (not the sentinel `c + 1`, which stays internal to
`jl_unw_stepn`) when `d > c`; the returned count never exceeds `c`. -/
theorem C2_bounded_capture_min (walk : List Frame) (c : Nat) (st : JlState)
    (hw : walk ≠ []) :
    (rec_backtrace_ctx unwBackend walk c st).1 = min walk.length c
      ∧ (rec_backtrace_ctx unwBackend walk c st).1 ≤ c := by
  have hmain : (rec_backtrace_ctx unwBackend walk c st).1 = min walk.length c := by
    by_cases h : c < walk.length
    · simp only [rec_backtrace_ctx, unwBackend]
      rw [jl_unw_stepn_unw_trunc walk c st h]
      simp only [Nat.min_def]
      split_ifs <;> omega
    · have hle : walk.length ≤ c := Nat.le_of_not_lt h
      simp only [rec_backtrace_ctx, unwBackend]
      rw [jl_unw_stepn_unw_complete walk c st hw hle]
      simp only [Nat.min_def]
      split_ifs <;> omega
  exact ⟨hmain, by rw [hmain]; omega⟩

/-- Witness for C2: capturing a depth-2 walk with capacity 1 returns
`min 2 1 = 1`. -/
theorem C2_witness :
    walk2 ≠ [] ∧ (rec_backtrace_ctx unwBackend walk2 1 st0).1 = 1 := by
  refine ⟨by decide, ?_⟩
  have h := (C2_bounded_capture_min walk2 1 st0 (by decide)).1
  simpa [walk2] using h

/-- C3 counterexample: a fault injected at step `k = 3` of a 3-frame walk
(2 frames already collected) makes `jl_unw_stepn` return 1, not the
`k - 1 = 2` the claim asserts the caller observes. -/
theorem C3_counterexample :
    ¬ ((jl_unw_stepn faultyStep (walk3, 2) 10 st0).count = 2) := by
  decide

/-- C3 (amended): if an illegal memory access occurs during the walk after
`k - 1` frames have been collected (a fault injected at step `k ≥ 1` of an
otherwise-valid walk, reached before the capacity runs out), the recovery
path decrements the collected count `k - 1` by one when it is positive, so
the caller observes `k - 2` frames (0 frames when `k = 1`) and the walk
terminates normally instead of crashing. -/
theorem C3_fault_backoff (walk : List Frame) (k maxsize : Nat)
    (st : JlState) (hk : 1 ≤ k) (hkd : k ≤ walk.length)
    (hkm : k - 1 < maxsize) :
    (jl_unw_stepn faultyStep (walk, k - 1) maxsize st).count = k - 2 := by
  have hlen : (k - 1) + 1 ≤ walk.length := by omega
  have h := stepnGo_fault maxsize (k - 1) walk maxsize 0 [] hkm hlen
  simp only [jl_unw_stepn, h]
  split_ifs <;> omega

/-- Witness for C3: a fault at step 3 of a 3-frame walk with capacity 10
yields `3 - 2 = 1` frames. -/
theorem C3_witness :
    (1 ≤ 3 ∧ 3 ≤ walk3.length ∧ 3 - 1 < 10)
      ∧ (jl_unw_stepn faultyStep (walk3, 3 - 1) 10 st0).count = 3 - 2 := by
  exact ⟨by decide,
    C3_fault_backoff walk3 3 10 st0 (by decide) (by decide) (by decide)⟩

/-! Helper lemmas about the growable-capture loop. -/

/-- Writing `w ≤ m` values into an array grown by `m` cells, starting at
the old end, keeps the old content, appends the values and leaves
`k = m - w` pad cells. -/
theorem writeAt_growEnd (a : List Nat) (off m : Nat) (vals : List Nat)
    (k : Nat) (hoff : a.length = off) (_h : vals.length ≤ m)
    (hk : k = m - vals.length) :
    writeAt (growEnd a m) off vals = a ++ vals ++ List.replicate k 0 := by
  subst hoff hk
  unfold writeAt growEnd
  rw [List.take_left, ← List.drop_drop, List.drop_left, List.drop_replicate]

/-- Deleting the `k = m - w` pad cells at the end of an array that holds
content followed by `k` pad cells leaves exactly the content. -/
theorem delEnd_pad (a vals : List Nat) (k : Nat) :
    delEnd (a ++ vals ++ List.replicate k 0) k = a ++ vals := by
  unfold delEnd
  have hl : (a ++ vals ++ List.replicate k (0 : Nat)).length - k
      = (a ++ vals).length := by
    simp [List.length_append, List.length_replicate]
    omega
  rw [hl, List.take_left]

/-- The grow/step/trim loop threads the global state through
`jl_unw_stepn`, which preserves it. -/
theorem fromHereGo_state {κ : Type} (step : κ → StepResult κ) (m : Nat) :
    ∀ (fuel : Nat) (cur : κ) (ipArr : List Nat) (sp : Option (List Nat))
      (offset : Nat) (st : JlState),
      (fromHereGo step m fuel cur ipArr sp offset st).2.2 = st := by
  intro fuel
  induction fuel with
  | zero => intro cur ipArr sp offset st; rfl
  | succ fuel ih =>
    intro cur ipArr sp offset st
    simp only [fromHereGo]
    rw [jl_unw_stepn_state]
    split
    · exact ih ..
    · rfl

/-- The grow/step/trim loop on a nonempty libunwind walk appends exactly
the walk's instruction pointers to the ip array (and its stack pointers to
the sp array when one is carried), for any increment `m ≥ 1`, any fuel at
least the walk's depth, and arrays filled exactly up to `offset`. -/
theorem fromHereGo_unw_exact (m : Nat) (hm : 1 ≤ m) :
    ∀ (fuel : Nat) (cur : List Frame) (ipArr : List Nat)
      (sp : Option (List Nat)) (offset : Nat) (st : JlState),
      cur ≠ [] → cur.length ≤ fuel → ipArr.length = offset →
      (∀ a, sp = some a → a.length = offset) →
      fromHereGo unwStep m fuel cur ipArr sp offset st
        = (ipArr ++ cur.map Frame.ip,
           sp.map (fun a => a ++ cur.map Frame.sp), st) := by
  intro fuel
  induction fuel with
  | zero =>
    intro cur _ _ _ _ hcur hlen _ _
    exact absurd (List.eq_nil_of_length_eq_zero (Nat.le_zero.mp hlen)) hcur
  | succ fuel ih =>
    intro cur ipArr sp offset st hcur hlen hip hsp
    by_cases hc : cur.length ≤ m
    · -- final iteration: the whole remaining walk fits in one increment
      have hstep := jl_unw_stepn_unw_complete cur m st hcur hc
      have hvi : (cur.map Frame.ip).length ≤ m := by simpa using hc
      have hvs : (cur.map Frame.sp).length ≤ m := by simpa using hc
      cases sp with
      | none =>
        simp only [fromHereGo, hstep, Option.map_none']
        rw [if_neg (by omega)]
        rw [writeAt_growEnd ipArr offset m (cur.map Frame.ip)
              (m - cur.length) hip hvi (by simp)]
        rw [delEnd_pad ipArr (cur.map Frame.ip) (m - cur.length)]
      | some a0 =>
        have ha0 := hsp a0 rfl
        simp only [fromHereGo, hstep, Option.map_some']
        rw [if_neg (by omega)]
        rw [writeAt_growEnd ipArr offset m (cur.map Frame.ip)
              (m - cur.length) hip hvi (by simp)]
        rw [writeAt_growEnd a0 offset m (cur.map Frame.sp)
              (m - cur.length) ha0 hvs (by simp)]
        rw [delEnd_pad ipArr (cur.map Frame.ip) (m - cur.length)]
        rw [delEnd_pad a0 (cur.map Frame.sp) (m - cur.length)]
    · -- truncated iteration: fill the increment and loop again
      have hlt : m < cur.length := Nat.lt_of_not_le hc
      have hstep := jl_unw_stepn_unw_trunc cur m st hlt
      have htk : ((cur.take m).map Frame.ip).length = m := by
        simp [List.length_take]; omega
      have htk' : ((cur.take m).map Frame.sp).length = m := by
        simp [List.length_take]; omega
      have hne : cur.drop m ≠ [] := by
        intro hnil
        have := congrArg List.length hnil
        simp [List.length_drop] at this
        omega
      have hlen2 : (cur.drop m).length ≤ fuel := by
        simp [List.length_drop]
        omega
      cases sp with
      | none =>
        simp only [fromHereGo, hstep, Option.map_none']
        rw [if_pos (by omega)]
        rw [writeAt_growEnd ipArr offset m ((cur.take m).map Frame.ip) 0
              hip (le_of_eq htk) (by rw [htk]; omega)]
        rw [ih (cur.drop m) (ipArr ++ (cur.take m).map Frame.ip ++ List.replicate 0 0)
              none (offset + m) st hne hlen2
              (by simp [hip]; omega) (by intro a ha; cases ha)]
        simp only [Option.map_none', List.replicate_zero, List.append_nil,
          List.append_assoc, ← List.map_append, List.take_append_drop]
      | some a0 =>
        have ha0 := hsp a0 rfl
        simp only [fromHereGo, hstep, Option.map_some']
        rw [if_pos (by omega)]
        rw [writeAt_growEnd ipArr offset m ((cur.take m).map Frame.ip) 0
              hip (le_of_eq htk) (by rw [htk]; omega)]
        rw [writeAt_growEnd a0 offset m ((cur.take m).map Frame.sp) 0
              ha0 (le_of_eq htk') (by rw [htk']; omega)]
        rw [ih (cur.drop m) (ipArr ++ (cur.take m).map Frame.ip ++ List.replicate 0 0)
              (some (a0 ++ (cur.take m).map Frame.sp ++ List.replicate 0 0))
              (offset + m) st hne hlen2
              (by simp [hip]; omega)
              (by intro a ha
                  injection ha with ha
                  subst ha
                  simp [ha0]; omega)]
        simp only [Option.map_some', List.replicate_zero, List.append_nil,
          List.append_assoc, ← List.map_append, List.take_append_drop]

/-- C4: growable capture of a walk of depth `d ≥ 1` grows the ip buffer in
fixed increments, keeps extending while the stepping loop signals
truncation, and trims so that the final buffer is exactly the `d` captured
instruction pointers — for the source's increment of 1000 and indeed for
every increment of at least 1 — and when stack pointers are requested the
parallel sp buffer holds the `d` stack pointers, the identical length. -/
theorem C4_growable_exact (walk : List Frame) (returnsp : Bool)
    (st : JlState) (incr fuel : Nat) (hincr : 1 ≤ incr) (hw : walk ≠ [])
    (hfuel : walk.length ≤ fuel) :
    (jl_backtrace_from_here_gen unwBackend incr fuel returnsp walk st
        = (walk.map Frame.ip,
           if returnsp then some (walk.map Frame.sp) else none, st))
      ∧ (jl_backtrace_from_here unwBackend fuel returnsp walk st
        = (walk.map Frame.ip,
           if returnsp then some (walk.map Frame.sp) else none, st))
      ∧ (jl_backtrace_from_here unwBackend fuel returnsp walk st).1.length
          = walk.length := by
  have main : ∀ m : Nat, 1 ≤ m →
      jl_backtrace_from_here_gen unwBackend m fuel returnsp walk st
        = (walk.map Frame.ip,
           if returnsp then some (walk.map Frame.sp) else none, st) := by
    intro m hm
    simp only [jl_backtrace_from_here_gen, unwBackend]
    rw [fromHereGo_unw_exact m hm fuel walk []
          (if returnsp then some [] else none) 0 st hw hfuel rfl
          (by intro a ha; cases returnsp <;> simp_all)]
    cases returnsp <;> simp
  refine ⟨main incr hincr, ?_, ?_⟩
  · exact main 1000 (by omega)
  · rw [jl_backtrace_from_here, main 1000 (by omega)]
    simp [List.length_map]

/-- Witness for C4: growable capture of a 3-frame walk with increment 2
(forcing one truncated iteration plus a final trim) returns exactly the
three instruction pointers and the three stack pointers. -/
theorem C4_witness :
    (1 ≤ 2 ∧ walk3 ≠ [] ∧ walk3.length ≤ 5)
      ∧ jl_backtrace_from_here_gen unwBackend 2 5 true walk3 st0
          = ([1, 3, 5], some [2, 4, 6], st0) := by
  refine ⟨by decide, ?_⟩
  have h := (C4_growable_exact walk3 true st0 2 5 (by decide) (by decide)
    (by decide)).1
  simpa [walk3] using h

/-- C7: neither bounded capture (`rec_backtrace` / `rec_backtrace_ctx`) nor
growable capture (`jl_backtrace_from_here`) modifies the snapshot state:
after either call, the durable `jl_bt_data` buffer and the `jl_bt_size`
length are unchanged, for every backend, context, capacity and state. -/
theorem C7_capture_leaves_snapshot {γ κ : Type} (B : Backend γ κ) (ctx : γ)
    (maxsize fuel : Nat) (returnsp : Bool) (st : JlState) :
    ((rec_backtrace_ctx B ctx maxsize st).2.2.bt_data = st.bt_data
      ∧ (rec_backtrace_ctx B ctx maxsize st).2.2.bt_size = st.bt_size)
    ∧ ((rec_backtrace B ctx maxsize st).2.2.bt_data = st.bt_data
      ∧ (rec_backtrace B ctx maxsize st).2.2.bt_size = st.bt_size)
    ∧ ((jl_backtrace_from_here B fuel returnsp ctx st).2.2.bt_data = st.bt_data
      ∧ (jl_backtrace_from_here B fuel returnsp ctx st).2.2.bt_size
          = st.bt_size) := by
  have hctx : (rec_backtrace_ctx B ctx maxsize st).2.2 = st := by
    unfold rec_backtrace_ctx
    cases hB : B.init ctx with
    | none => rfl
    | some cur => simp [jl_unw_stepn_state]
  have hrb : (rec_backtrace B ctx maxsize st).2.2 = st := hctx
  have hfh : (jl_backtrace_from_here B fuel returnsp ctx st).2.2 = st := by
    unfold jl_backtrace_from_here jl_backtrace_from_here_gen
    cases hB : B.init ctx with
    | none => rfl
    | some cur => simp [fromHereGo_state]
  exact ⟨⟨by rw [hctx], by rw [hctx]⟩, ⟨by rw [hrb], by rw [hrb]⟩,
    ⟨by rw [hfh], by rw [hfh]⟩⟩

/-- C8: when backend initialisation fails — in particular on the disabled
backend, whose `jl_unw_init` and `jl_unw_step` always report failure
immediately — every bounded capture call returns 0 frames and growable
capture returns empty buffers, with the global state untouched, rather
than propagating an error. -/
theorem C8_init_failure_graceful {γ κ : Type} (B : Backend γ κ) (ctx : γ)
    (maxsize fuel : Nat) (returnsp : Bool) (st : JlState)
    (h : B.init ctx = none) :
    rec_backtrace_ctx B ctx maxsize st = (0, [], st)
      ∧ rec_backtrace B ctx maxsize st = (0, [], st)
      ∧ jl_backtrace_from_here B fuel returnsp ctx st
          = ([], if returnsp then some [] else none, st)
      ∧ disabledBackend.init () = none
      ∧ (∀ u : Unit, disabledBackend.step u = StepResult.fail) := by
  refine ⟨?_, ?_, ?_, rfl, fun _ => rfl⟩
  · simp [rec_backtrace_ctx, h]
  · simp [rec_backtrace, rec_backtrace_ctx, h]
  · simp [jl_backtrace_from_here, jl_backtrace_from_here_gen, h]

/-- Witness for C8: on the disabled backend with capacity 5, bounded
capture returns 0 frames and growable capture returns empty buffers. -/
theorem C8_witness :
    disabledBackend.init () = none
      ∧ rec_backtrace_ctx disabledBackend () 5 st0 = (0, [], st0)
      ∧ jl_backtrace_from_here disabledBackend 7 true () st0
          = ([], some [], st0) := by
  have h := C8_init_failure_graceful disabledBackend () 5 7 true st0 rfl
  exact ⟨rfl, h.1, by simpa using h.2.2.1⟩

/-- C5 counterexample: querying `jl_lookup_code_address` at address 100
against a service reporting a single nameless descriptor with line 5
yields a descriptor whose line slot holds 5, not the raw address 100 the
claim asserts (and the name substituted is the empty symbol, not a fixed
placeholder text). -/
theorem C5_counterexample :
    ¬ (∀ r ∈ jl_lookup_code_address svcNoName 100 true,
        r.line = (100 : Int)) := by
  intro h
  have hm : (⟨"", "", 5, none, true, false, (100 : Int)⟩ : LookupEntry)
      ∈ jl_lookup_code_address svcNoName 100 true := by
    simp [jl_lookup_code_address, svcNoName]
  have h5 := h _ hm
  simp only [] at h5
  omega

/-- C5 (amended): `jl_lookup_code_address` returns one descriptor per
service frame, and every descriptor has a non-absent function and file
name: an absent name or file is substituted by `empty_sym` (the empty
symbol, not a fixed placeholder text), while the line slot holds the line
exactly as the service reported it (not the raw address) and slot 6 holds
the queried address.  In particular a single nameless service frame
produces exactly one descriptor with empty-symbol name and file and the
service-reported line. -/
theorem C5_lookup_normalizes (svc : CodeInfoService) (ip : Nat)
    (skipC : Bool) :
    ((jl_lookup_code_address svc ip skipC).length
        = (svc ip skipC false).length)
      ∧ (∀ i : Nat, (jl_lookup_code_address svc ip skipC)[i]?
          = ((svc ip skipC false)[i]?).map fun f =>
              { func := f.func_name.getD "", file := f.file_name.getD "",
                line := f.line, linfo := f.linfo, fromC := f.fromC,
                inlined := f.inlined, pointer := (ip : Int) })
      ∧ (∀ f : JlSymFrame, svc ip skipC false = [f] → f.func_name = none →
          jl_lookup_code_address svc ip skipC
            = [{ func := "", file := f.file_name.getD "", line := f.line,
                 linfo := f.linfo, fromC := f.fromC, inlined := f.inlined,
                 pointer := (ip : Int) }]) := by
  refine ⟨by simp [jl_lookup_code_address], ?_, ?_⟩
  · intro i
    simp [jl_lookup_code_address]
  · intro f hf hn
    simp [jl_lookup_code_address, hf, hn]

/-- Witness for C5 (amended): against the nameless-descriptor service, the
bridge returns exactly one descriptor with empty-symbol name and file and
the service's line 5. -/
theorem C5_witness :
    jl_lookup_code_address svcNoName 100 true
      = [{ func := "", file := "", line := 5, linfo := none, fromC := true,
           inlined := false, pointer := (100 : Int) }] := by
  have h := (C5_lookup_normalizes svcNoName 100 true).2.2
    { func_name := none, file_name := none, line := 5, linfo := none,
      fromC := true, inlined := false } rfl rfl
  simpa using h

/-- The for loop of `jl_gdblookup` prints exactly one line per returned
descriptor, each rendered independently of the others. -/
theorem gdbLoop_eq_map (ip : Nat) (l : List JlSymFrame) :
    gdbLoop ip l = l.map (renderFrame ip) := by
  induction l with
  | nil => rfl
  | cons f rest ih => simp [gdbLoop, ih]

/-- C6 counterexample: against a service that reports one physical frame
when inline expansion is suppressed and two descriptors when it is
expanded, `jl_gdblookup` emits one line — it queries with `noInline = 1` —
whereas the claim's "inline expansion forced on" (`noInline = 0`) would
emit one line per expanded descriptor, i.e. two. -/
theorem C6_counterexample :
    ¬ ((jl_gdblookup svcInline 6).length
        = (svcInline 6 false false).length) := by
  simp [jl_gdblookup, gdbLoop, svcInline]

/-- C6 (amended): the diagnostic printer processes each of the first
`jl_bt_size` captured addresses minus one byte and looks each up with
inline expansion suppressed (`noInline = 1` — not forced on, as the
source's own comment states), emitting exactly one line per returned
descriptor: `function at file:line` when the line is known, `function at
file (unknown line)` when the line is `-1`, and
`unknown function (ip: <address>)` when the descriptor has no name; each
stored frame is processed independently, so a failed lookup for one frame
cannot prevent the remaining frames from being printed. -/
theorem C6_printer_lines (svc : CodeInfoService) (st : JlState) :
    (jlbacktrace svc st
        = (st.bt_data.take st.bt_size).map fun a =>
            (svc (a - 1) false true).map (renderFrame (a - 1)))
      ∧ (∀ ip : Nat,
          (jl_gdblookup svc ip).length = (svc ip false true).length)
      ∧ (∀ (ip : Nat) (f : JlSymFrame), f.func_name = none →
          renderFrame ip f = "unknown function (ip: " ++ toString ip ++ ")")
      ∧ (∀ (ip : Nat) (f : JlSymFrame) (fn file : String),
          f.func_name = some fn → f.file_name = some file → f.line ≠ -1 →
          renderFrame ip f = fn ++ " at " ++ file ++ ":" ++ toString f.line)
      ∧ (∀ (ip : Nat) (f : JlSymFrame) (fn file : String),
          f.func_name = some fn → f.file_name = some file → f.line = -1 →
          renderFrame ip f = fn ++ " at " ++ file ++ " (unknown line)") := by
  refine ⟨?_, ?_, ?_, ?_, ?_⟩
  · simp only [jlbacktrace, jl_gdblookup, gdbLoop_eq_map]
  · intro ip
    simp [jl_gdblookup, gdbLoop_eq_map]
  · intro ip f h
    simp [renderFrame, h]
  · intro ip f fn file hfn hfile hline
    simp [renderFrame, hfn, hfile, hline]
  · intro ip f fn file hfn hfile hline
    simp [renderFrame, hfn, hfile, hline]

/-- Witness for C6 (amended): a snapshot holding the single address 7 is
printed by looking up address 6 with expansion suppressed, producing the
one known-line form. -/
theorem C6_witness :
    jlbacktrace svcInline
        { bt_data := [7], bt_size := 1, safe_restore := false }
      = [["f" ++ " at " ++ "a.c" ++ ":" ++ toString (1 : Int)]] := by
  have h := (C6_printer_lines svcInline
    { bt_data := [7], bt_size := 1, safe_restore := false }).1
  rw [h]
  simp [svcInline, renderFrame]

/-- C9 counterexample: with `jl_in_stackwalk` already set and an address
that `RtlLookupFunctionEntry` resolves, `JuliaFunctionTableAccess64`
returns the resolved entry 7, not the "not found" value 0 the claim
asserts for every query under a set flag (the guard is consulted only
after the Rtl lookup misses). -/
theorem C9_counterexample :
    ¬ ((JuliaFunctionTableAccess64 rtlHit symZero 42
        { jl_in_stackwalk := true }).1 = 0) := by
  decide

/-- C9 (amended): for an address the `RtlLookupFunctionEntry` oracle does
not resolve, a resolution callback invoked while `jl_in_stackwalk` is set
returns the "not found" value 0 and leaves the flag alone without
consulting the debug-help service; when the flag is clear, the callback
calls the debug-help service with the flag set for the duration of the
nested call and clears it afterwards; an address the Rtl oracle resolves is
answered from it regardless of the flag. -/
theorem C9_resolution_guard (rtl : Nat → Option Nat)
    (sym : Nat → Bool → Nat) (addr : Nat) (st : WinState) :
    (rtl addr = none → st.jl_in_stackwalk = true →
        JuliaFunctionTableAccess64 rtl sym addr st = (0, st)
      ∧ JuliaGetModuleBase64 rtl sym addr st = (0, st))
    ∧ (rtl addr = none → st.jl_in_stackwalk = false →
        JuliaFunctionTableAccess64 rtl sym addr st
          = (sym addr true, { jl_in_stackwalk := false })
      ∧ JuliaGetModuleBase64 rtl sym addr st
          = (sym addr true, { jl_in_stackwalk := false }))
    ∧ (∀ v : Nat, rtl addr = some v →
        JuliaFunctionTableAccess64 rtl sym addr st = (v, st)
      ∧ JuliaGetModuleBase64 rtl sym addr st = (v, st)) := by
  obtain ⟨b⟩ := st
  refine ⟨?_, ?_, ?_⟩
  · intro hr hf
    constructor <;>
      simp [JuliaFunctionTableAccess64, JuliaGetModuleBase64, hr, hf] at hf ⊢ <;>
      simp [hf]
  · intro hr hf
    constructor <;>
      simp at hf <;>
      simp [JuliaFunctionTableAccess64, JuliaGetModuleBase64, hr, hf]
  · intro v hr
    constructor <;>
      simp [JuliaFunctionTableAccess64, JuliaGetModuleBase64, hr]

/-- Witness for C9 (amended): a miss with the flag clear calls the
debug-help oracle with the flag observed set (it answers 77 only when it
sees the flag up) and ends with the flag cleared. -/
theorem C9_witness :
    JuliaFunctionTableAccess64 (fun _ => none)
        (fun _ b => if b then 77 else 88) 42 { jl_in_stackwalk := false }
      = (77, { jl_in_stackwalk := false }) := by
  have h := ((C9_resolution_guard (fun _ => none)
    (fun _ b => if b then 77 else 88) 42 { jl_in_stackwalk := false }).2.1
    rfl rfl).1
  simpa using h

/-- C10: `jl_get_backtrace` returns a freshly built array whose length
equals the snapshot length `jl_bt_size` and whose elements are exactly the
first `jl_bt_size` entries of `jl_bt_data`, and the call leaves the
snapshot itself unchanged.  The hypothesis reflects the source invariant
that `jl_bt_size` never exceeds the `jl_bt_data` buffer's `MAX_BT_SIZE`
cells. -/
theorem C10_get_backtrace_copies (st : JlState)
    (h : st.bt_size ≤ st.bt_data.length) :
    ((jl_get_backtrace st).1.length = st.bt_size)
      ∧ (∀ i : Nat, i < st.bt_size →
          (jl_get_backtrace st).1[i]? = st.bt_data[i]?)
      ∧ (jl_get_backtrace st).2 = st := by
  refine ⟨?_, ?_, rfl⟩
  · simp [jl_get_backtrace, List.length_take]
    omega
  · intro i hi
    simp [jl_get_backtrace, List.getElem?_take, hi]

/-- Witness for C10: reading the snapshot `[10, 20, 30]` of current length
2 yields the fresh array `[10, 20]` of length 2. -/
theorem C10_witness :
    (stA.bt_size ≤ stA.bt_data.length
        ∧ (jl_get_backtrace stA).1.length = stA.bt_size)
      ∧ (jl_get_backtrace stA).1 = [10, 20] := by
  refine ⟨⟨by decide, (C10_get_backtrace_copies stA (by decide)).1⟩, by decide⟩

end Stackwalk
